import Mathlib

/-!
Verification development for the nxml2txt document-conversion pipeline
(`src/nxml2txt/nxmldoc.py` and `src/nxml2txt/rewritetex.py`).

The Python code is shallowly embedded: strings are `List Char` or `String`,
Python ints are `Int`, dicts are association lists in insertion order,
in-place mutation of standoff objects is explicit state passing over the
standoff list (objects are addressed by their index in the list), and
fallible code returns `Option` / `Except`.  External collaborators
(BeautifulSoup's parse of the bibliography, the `latex`/`catdvi` toolchain,
the standoff converter) are modelled as inputs/oracles, matching the spec's
"external collaborator" boundary.
-/

deriving instance DecidableEq for Except

namespace Nxml2txt

/-! ## Python string primitives -/

/-- Python `\s` (`re` module, unicode mode): ASCII whitespace plus the
unicode whitespace code points. -/
def isPySpace (c : Char) : Bool :=
  c = ' ' || c = '\t' || c = '\n' || c = '\r' || c = '\x0b' || c = '\x0c' ||
  (0x1c ≤ c.toNat && c.toNat ≤ 0x1f) || c = '\x85' || c = '\xa0' ||
  c = '\u1680' || (0x2000 ≤ c.toNat && c.toNat ≤ 0x200a) ||
  c = '\u2028' || c = '\u2029' || c = '\u202f' || c = '\u205f' || c = '\u3000'

/-- `re.sub(r"\s+", " ", s)`: collapse every run of whitespace to a single
space.  The boolean argument records whether the previous character was
part of a whitespace run. -/
def collapseA : Bool → List Char → List Char
  | _, [] => []
  | afterSpace, c :: rest =>
    if isPySpace c then
      if afterSpace then collapseA true rest else ' ' :: collapseA true rest
    else c :: collapseA false rest

/-- Whitespace-run collapse as used by `normalize_tex` and `tex2str`. -/
def collapseWs (s : List Char) : List Char := collapseA false s

/-- `re.sub(r"^\s*", "", s)`: drop leading whitespace. -/
def trimStart (s : List Char) : List Char := s.dropWhile isPySpace

/-- `re.sub(r"\s*$", "", s)`: drop trailing whitespace. -/
def trimEnd (s : List Char) : List Char := (s.reverse.dropWhile isPySpace).reverse

/-- Python slice `text[a:b]` for `Int` indices (negative indices count from
the end, out-of-range indices clamp). -/
def pyslice (text : List Char) (a b : Int) : List Char :=
  let n : Int := text.length
  let lo : Int := if a < 0 then max 0 (n + a) else min a n
  let hi : Int := if b < 0 then max 0 (n + b) else min b n
  (text.take hi.toNat).drop lo.toNat

/-- If `pat` is a prefix of `s`, the remainder of `s` after it. -/
def litAfter : List Char → List Char → Option (List Char)
  | [], s => some s
  | _ :: _, [] => none
  | p :: ps, c :: cs => if p = c then litAfter ps cs else none

/-! ## rewritetex.py: `normalize_tex`

`normalize_tex` applies, in order: `texstdpack_re.sub("", s)`,
`texdecl_re.sub("", s)`, whitespace collapse, and leading/trailing
whitespace removal.  The two substitutions are modelled by direct scanners
for the two fixed patterns (both replace with the empty string, scanning
for leftmost non-overlapping matches exactly as `re.sub` does). -/

/-- The seven alternatives of `texstdpack_re`:
`\usepackage{(amsbsy|amsfonts|amsmath|amssymb|mathrsfs|upgreek|wasysym)}`. -/
def stdpackAlts : List (List Char) :=
  ["\\usepackage\x7bamsbsy\x7d".toList, "\\usepackage\x7bamsfonts\x7d".toList,
   "\\usepackage\x7bamsmath\x7d".toList, "\\usepackage\x7bamssymb\x7d".toList,
   "\\usepackage\x7bmathrsfs\x7d".toList, "\\usepackage\x7bupgreek\x7d".toList,
   "\\usepackage\x7bwasysym\x7d".toList]

/-- Match of `texstdpack_re` at the current position: remainder on success. -/
def stdpackMatchAt (s : List Char) : Option (List Char) :=
  stdpackAlts.findSome? (fun pat => litAfter pat s)

/-- Scan for `[^\[\]]*\]`: the remainder after the closing bracket, or
`none` when the bracket group cannot match (another `[` or end of input). -/
def scanToCloseBr : List Char → Option (List Char)
  | [] => none
  | c :: rest =>
    if c = ']' then some rest
    else if c = '[' then none
    else scanToCloseBr rest

/-- The optional group `(?:\[[^\[\]]*\])?` of `texdecl_re`. -/
def afterBracketOpt (s : List Char) : List Char :=
  match s with
  | '[' :: rest =>
    match scanToCloseBr rest with
    | some s1 => s1
    | none => s
  | _ => s

/-- Scan for `[^\{\}]*\}`: remainder after the closing brace, or `none`. -/
def scanToCloseBrace : List Char → Option (List Char)
  | [] => none
  | c :: rest =>
    if c = '\x7d' then some rest
    else if c = '\x7b' then none
    else scanToCloseBrace rest

/-- The starred group `(?:\{[^\{\}]*\})*` of `texdecl_re` (greedy).  Fuel
bounds the number of brace groups; each group consumes at least two
characters so `length + 1` fuel is always enough. -/
def bracesStarF : Nat → List Char → List Char
  | 0, s => s
  | fuel + 1, s =>
    match s with
    | '\x7b' :: rest =>
      (match scanToCloseBrace rest with
       | some s1 => bracesStarF fuel s1
       | none => s)
    | _ => s

/-- The four command words of `texdecl_re`, in alternation order. -/
def declWords : List (List Char) :=
  ["documentclass".toList, "usepackage".toList, "setlength".toList,
   "pagestyle".toList]

/-- Match of
`(\\(?:documentclass|usepackage|setlength|pagestyle)(?:\[[^\[\]]*\])?(?:\{[^\{\}]*\})*)`
at the current position: remainder on success. -/
def declMatchAt (s : List Char) : Option (List Char) :=
  match s with
  | [] => none
  | c :: rest =>
    if c = '\\' then
      match declWords.findSome? (fun w => litAfter w rest) with
      | some r1 => some (bracesStarF (r1.length + 1) (afterBracketOpt r1))
      | none => none
    else none

/-- `pattern.sub("", s)` for a pattern given by its match-at-position
function: leftmost non-overlapping matches replaced by the empty string.
Every successful match of the two patterns above consumes at least one
character, so `length + 1` fuel always suffices. -/
def subEmptyF (matchAt : List Char → Option (List Char)) :
    Nat → List Char → List Char
  | 0, s => s
  | fuel + 1, s =>
    match s with
    | [] => []
    | c :: rest =>
      match matchAt (c :: rest) with
      | some s1 => subEmptyF matchAt fuel s1
      | none => c :: subEmptyF matchAt fuel rest

/-- `texstdpack_re.sub("", s)`. -/
def stdpackSub (s : List Char) : List Char :=
  subEmptyF stdpackMatchAt (s.length + 1) s

/-- `texdecl_re.sub("", s)`. -/
def declSub (s : List Char) : List Char :=
  subEmptyF declMatchAt (s.length + 1) s

/-- `normalize_tex` (rewritetex.py lines 74-98): remove standard package
includes, remove header boilerplate declarations, collapse whitespace runs
to single spaces, trim leading and trailing space. -/
def normalize_tex (s : List Char) : List Char :=
  trimEnd (trimStart (collapseWs (declSub (stdpackSub s))))

/-! ## rewritetex.py: `ordall` / `unordall` -/

/-- `ordall` (rewritetex.py lines 101-115): map every string value of the
dict to its list of code points.  Dicts are association lists in insertion
order. -/
def ordall (d : List (String × String)) : List (String × List Nat) :=
  d.map (fun kv => (kv.1, kv.2.toList.map Char.toNat))

/-- `unordall` (rewritetex.py lines 118-132): map every code-point-list
value back to a string. -/
def unordall (d : List (String × List Nat)) : List (String × String) :=
  d.map (fun kv => (kv.1, (kv.2.map Char.ofNat).asString))

/-! ## Namespace stripping and HTML unescaping -/

mutual

/-- `re.sub('\x7b.*?\x7d', '', tag)` (nxmldoc.py line 375): remove every
leftmost non-greedy brace group. -/
def stripNsA : List Char → List Char
  | [] => []
  | c :: rest => if c = '\x7b' then stripNsB [c] rest else c :: stripNsA rest

/-- State inside a brace group: collects the scanned characters so that an
unterminated group is kept verbatim (the pattern then has no match there). -/
def stripNsB (buf : List Char) : List Char → List Char
  | [] => buf.reverse
  | c :: rest => if c = '\x7d' then stripNsA rest else stripNsB (c :: buf) rest

end

/-- Namespace stripping on `String`s. -/
def stripNsStr (s : String) : String := (stripNsA s.toList).asString

/-- The entity table used by the model of Python's `html.unescape`
(restricted to the XML-core entities the pipeline's own escaping emits;
per the HTML5 rules Python implements, these also match without the
trailing semicolon). -/
def htmlEntities : List (List Char × Char) :=
  [("amp;".toList, '&'), ("amp".toList, '&'), ("lt;".toList, '<'),
   ("lt".toList, '<'), ("gt;".toList, '>'), ("gt".toList, '>'),
   ("quot;".toList, '"'), ("quot".toList, '"'), ("apos;".toList, '\'')]

/-- Fuel-bounded scanner for `html.unescape`. -/
def huF : Nat → List Char → List Char
  | 0, s => s
  | fuel + 1, s =>
    match s with
    | [] => []
    | c :: rest =>
      if c = '&' then
        match htmlEntities.findSome?
            (fun e => (litAfter e.1 rest).map (fun r => (e.2, r))) with
        | some dr => dr.1 :: huF fuel dr.2
        | none => c :: huF fuel rest
      else c :: huF fuel rest

/-- Model of Python `html.unescape`: replaces recognized entity references,
leaves everything else (in particular any string without `&`) unchanged. -/
def htmlUnescape (s : List Char) : List Char := huF (s.length + 1) s

/-! ## nxmldoc.py: document model

A `Span` is one standoff annotation: a half-open interval over the
document text plus the data of its originating tree element that the code
reads (`tag`, and the attributes/child lookups used: `id` on `fig`,
`sec-type` and the `title` child on `sec`, `ref-type` and `rid` on `xref`).
Missing attributes are modelled by their Python-falsy defaults; `title` is
`none` when the section has no title child, `some none` when the title
child has `None` text, and `some (some s)` otherwise. -/

structure Elem where
  tag : String
  id : String := ""
  secType : String := ""
  title : Option (Option String) := none
  refType : String := ""
  rid : String := ""
deriving DecidableEq, Inhabited

structure Span where
  start : Int
  end_ : Int
  element : Elem
deriving DecidableEq, Inhabited

/-- One tag among the descendants (in document order) of a bibliography
`ref` element, as BeautifulSoup yields them.  Non-tag descendants are
skipped by the source's `type(t) is Tag` guard, so they are not modelled. -/
structure TagNode where
  name : String
  text : String
deriving DecidableEq, Inhabited

/-- One `ref` element of the bibliography, as parsed by BeautifulSoup
(an external collaborator): its `id` attribute and its tag descendants. -/
structure RefSrc where
  id : Option String
  tags : List TagNode
deriving DecidableEq, Inhabited

/-- A built `NxmlDoc`: identifier, extracted text, standoffs, and the
bibliography `ref` elements of the same XML.  The text/standoff extraction
and the XML parse are external collaborators, so their outputs are the
model's inputs. -/
structure Doc where
  ft_id : String
  text : List Char
  standoffs : List Span
  refs : List RefSrc
deriving DecidableEq, Inhabited

/-! ## nxmldoc.py: containment queries (`hits`) and derivations -/

/-- Stable insertion of a span into a start-sorted list (placed after
existing spans of equal or smaller start, like Python's stable `sorted`). -/
def insertSpan (x : Span) : List Span → List Span
  | [] => [x]
  | y :: ys => if y.start ≤ x.start then y :: insertSpan x ys else x :: y :: ys

/-- `sorted(standoffs, key=lambda x: x.start)` (stable). -/
def sortSpans (l : List Span) : List Span :=
  l.foldl (fun acc s => insertSpan s acc) []

/-- The `hits` list every derivation starts from: spans (in start order)
that contain `t.start` and are not `t` itself.  Python's object identity
`s != t` is modelled as structural inequality (spans are distinguished by
their fields in this model). -/
def hits (standoffs : List Span) (t : Span) : List Span :=
  (sortSpans standoffs).filter (fun s =>
    decide (s.start ≤ t.start) && decide (t.start < s.end_) && !(s == t))

/-- `get_figure_reference` (nxmldoc.py lines 149-158): the `id` of the
first enclosing `fig` element, else the empty string. -/
def get_figure_reference (standoffs : List Span) (t : Span) : String :=
  match (hits standoffs t).findSome? (fun s =>
      if s.element.tag = "fig" then some s.element.id else none) with
  | some i => i
  | none => ""

/-- `get_sec_tree` (nxmldoc.py lines 160-178): `" >> "`-joined titles of
all enclosing `sec` elements, with `" ??? "` for a section without a
usable title text. -/
def get_sec_tree (standoffs : List Span) (t : Span) : String :=
  (hits standoffs t).foldl (fun acc s =>
    if s.element.tag = "sec" then
      (if acc.length > 0 then acc ++ " >> " else acc) ++
      (match s.element.title with
       | some (some txt) => txt
       | _ => " ??? ")
    else acc) ""

/-- `get_sec_tag` (nxmldoc.py lines 180-195): the title text of the last
(innermost) enclosing `sec`; `none` models Python `None` (title child with
`None` text). -/
def get_sec_tag (standoffs : List Span) (t : Span) : Option String :=
  match ((hits standoffs t).filter (fun s => s.element.tag == "sec")).getLast? with
  | none => some ""
  | some sec =>
    match sec.element.title with
    | some txt => txt
    | none => some ""

/-- The loop body of `get_top_level_sec_tag` over the hits list: return
the `sec-type` of a `sec` hit if truthy, else its title text if it has a
title child, else move on to the next hit; `some ""` if the list runs out. -/
def topLoop : List Span → Option String
  | [] => some ""
  | s :: rest =>
    if s.element.tag = "sec" then
      if s.element.secType ≠ "" then some s.element.secType
      else
        match s.element.title with
        | some txt => txt
        | none => topLoop rest
    else topLoop rest

/-- `get_top_level_sec_tag` (nxmldoc.py lines 197-209). -/
def get_top_level_sec_tag (standoffs : List Span) (t : Span) : Option String :=
  topLoop (hits standoffs t)

/-! ## nxmldoc.py: `extract_ref_dict_from_nxml` -/

/-- `re.sub("'", "''", s)`: escape single quotes by doubling. -/
def escQuote (s : String) : String :=
  (s.toList.foldr
    (fun c acc => if c = '\'' then '\'' :: '\'' :: acc else c :: acc) []).asString

/-- `re.match("(\d\d\d\d)", s)`: the first four characters if they are all
digits, matched at the start of the string. -/
def first4digits (s : String) : Option String :=
  match s.toList with
  | a :: b :: c :: d :: _ =>
    if a.isDigit && b.isDigit && c.isDigit && d.isDigit then
      some ([a, b, c, d].asString)
    else none
  | _ => none

/-- One entry of the reference dictionary.  `pmid` is carried because the
substitution code reads it (`ref.get("pmid")`); the extraction itself never
sets it (remote enrichment is an external collaborator). -/
structure RefD where
  ref : Option String := none
  author : String := ""
  first_author : Option String := none
  second_author : Option String := none
  title : Option String := none
  journal : Option String := none
  year : Option String := none
  vol : Option String := none
  page : Option String := none
  pmid : Option String := none
deriving DecidableEq, Inhabited

/-- First statement of the descendant loop of `extract_ref_dict_from_nxml`
(nxmldoc.py lines 578-583): the first surname becomes `first_author`. -/
def stepSurname1 (d : RefD) (t : TagNode) : RefD :=
  if t.name = "surname" ∧ d.first_author = none then
    { d with first_author := some (escQuote t.text) } else d

/-- Second statement (lines 584-589): a separate `if` (not `elif`), so it
also fires on the surname that has just set `first_author`. -/
def stepSurname2 (d : RefD) (t : TagNode) : RefD :=
  if t.name = "surname" ∧ d.first_author ≠ none then
    { d with second_author := some (escQuote t.text) } else d

/-- Third statement (lines 590-595): comma separator before a new `name`
group once the author list is nonempty. -/
def stepName (d : RefD) (t : TagNode) : RefD :=
  if t.name = "name" ∧ d.author.length > 0 then
    { d with author := d.author ++ ", " } else d

/-- Fourth statement (lines 596-597): surnames are appended to the
free-text author list. -/
def stepAuthor (d : RefD) (t : TagNode) : RefD :=
  if t.name = "surname" then
    { d with author := d.author ++ escQuote t.text } else d

/-- The `if given-names / elif ...` chain (lines 598-611). -/
def stepFields (d : RefD) (t : TagNode) : RefD :=
  if t.name = "given-names" then
    { d with author := d.author ++ " " ++ escQuote t.text }
  else if t.name = "article-title" then { d with title := some (escQuote t.text) }
  else if t.name = "source" then { d with journal := some t.text }
  else if t.name = "year" then
    match first4digits t.text with
    | some y => { d with year := some y }
    | none => d
  else if t.name = "volume" then { d with vol := some t.text }
  else if t.name = "fpage" then { d with page := some t.text }
  else d

/-- The body of the descendant loop (nxmldoc.py lines 577-611), one
descendant tag at a time: the five statements above in source order. -/
def stepRef (d : RefD) (t : TagNode) : RefD :=
  stepFields (stepAuthor (stepName (stepSurname2 (stepSurname1 d t) t) t) t) t

/-- The per-`ref` extraction: fold the descendant loop over the tags. -/
def extractRefEntry (r : RefSrc) : RefD :=
  r.tags.foldl stepRef { ref := r.id }

/-- Python dict assignment `d[k] = v`: update in place or append. -/
def dictSet (k : Option String) (v : RefD) :
    List (Option String × RefD) → List (Option String × RefD)
  | [] => [(k, v)]
  | kv :: rest => if kv.1 = k then (k, v) :: rest else kv :: dictSet k v rest

/-- Python `d.get(k, None)`. -/
def dictGet (d : List (Option String × RefD)) (k : Option String) : Option RefD :=
  (d.find? (fun kv => kv.1 == k)).map (fun kv => kv.2)

/-- `extract_ref_dict_from_nxml` with `search_pubmed=False` (the only form
the pipeline calls): one entry per bibliography `ref`, keyed by its id. -/
def extract_ref_dict_from_nxml (refs : List RefSrc) : List (Option String × RefD) :=
  refs.foldl (fun acc r => dictSet r.id (extractRefEntry r) acc) []

/-! ## A small backtracking regex engine

The citation-fallback regexes built at nxmldoc.py lines 504-523 use only:
literals, a `{0,1}` group over an ordered alternation, `\s+`, `[A-Za-z]+`,
`(19|20)` and `[0-9]`.  `matchK` implements Python's leftmost backtracking
semantics for exactly these constructs (alternation in order, greedy
option, greedy `+` with backtracking), in continuation-passing style. -/

inductive Rx where
  | eps : Rx
  | lit : List Char → Rx
  | cls : (Char → Bool) → Rx
  | seq : Rx → Rx → Rx
  | alt : Rx → Rx → Rx
  | opt : Rx → Rx
  | plus : (Char → Bool) → Rx

/-- Greedy `p+` with backtracking: consume one class character, then
prefer consuming more before yielding to the continuation. -/
def plusK (p : Char → Bool) (k : List Char → Option (List Char)) :
    List Char → Option (List Char)
  | [] => none
  | c :: rest =>
    if p c then
      match plusK p k rest with
      | some r => some r
      | none => k rest
    else none

/-- The backtracking matcher: `matchK r s k` matches `r` at the front of
`s` and passes the remainder to `k`, trying possibilities in Python's
order and returning the first success. -/
def matchK : Rx → List Char → (List Char → Option (List Char)) → Option (List Char)
  | .eps, s, k => k s
  | .lit pat, s, k =>
    (match litAfter pat s with
     | some s1 => k s1
     | none => none)
  | .cls p, s, k =>
    (match s with
     | [] => none
     | c :: rest => if p c then k rest else none)
  | .seq a b, s, k => matchK a s (fun s1 => matchK b s1 k)
  | .alt a b, s, k =>
    (match matchK a s k with
     | some r => some r
     | none => matchK b s k)
  | .opt a, s, k =>
    (match matchK a s k with
     | some r => some r
     | none => k s)
  | .plus p, s, k => plusK p k s

/-- A match of `r` starting exactly at the front of `s`: the remainder. -/
def rxMatchAt (r : Rx) (s : List Char) : Option (List Char) :=
  matchK r s some

/-- `pattern.search(s)`: a match starting at some position. -/
def rxSearch (r : Rx) : List Char → Bool
  | [] => (rxMatchAt r []).isSome
  | c :: rest => (rxMatchAt r (c :: rest)).isSome || rxSearch r rest

/-- `pattern.sub(repl, s)` with a literal replacement: replace every
leftmost non-overlapping match and continue after it.  The citation
patterns always consume at least one character (they all contain a
mandatory `\s+` part), so the zero-width guard is never taken and
`length + 1` fuel always suffices. -/
def rxSubAllF (r : Rx) (repl : List Char) : Nat → List Char → List Char
  | 0, s => s
  | fuel + 1, s =>
    match rxMatchAt r s with
    | some s1 =>
      if s1.length = s.length then
        match s with
        | [] => repl
        | c :: rest => repl ++ c :: rxSubAllF r repl fuel rest
      else repl ++ rxSubAllF r repl fuel s1
    | none =>
      match s with
      | [] => []
      | c :: rest => c :: rxSubAllF r repl fuel rest

def rxSubAll (r : Rx) (repl : List Char) (s : List Char) : List Char :=
  rxSubAllF r repl (s.length + 1) s

/-- `[A-Za-z]`. -/
def isAsciiAlpha (c : Char) : Bool :=
  (('A'.toNat ≤ c.toNat) && (c.toNat ≤ 'Z'.toNat)) ||
  (('a'.toNat ≤ c.toNat) && (c.toNat ≤ 'z'.toNat))

/-- The shared alternation tail `,|\s+et al\.\,|\s+et al` of the citation
patterns. -/
def etAlTail : Rx :=
  Rx.alt (Rx.lit ",".toList)
    (Rx.alt (Rx.seq (Rx.plus isPySpace) (Rx.lit "et al.,".toList))
      (Rx.seq (Rx.plus isPySpace) (Rx.lit "et al".toList)))

/-- The citation-fallback pattern built for one reference entry
(nxmldoc.py lines 504-523).  The three shapes correspond to the three
branches on which of year/second-author/first-author are truthy.  Author
and year fields are interpolated into the pattern text verbatim; they are
modelled as literals, which is exact whenever they contain no regex
metacharacters. -/
def refPattern (ref : RefD) : Rx :=
  let fa := (ref.first_author.getD "").toList
  let yr := (ref.year.getD "").toList
  if (ref.year.getD "") ≠ "" ∧ (ref.second_author.getD "") ≠ "" then
    Rx.seq (Rx.lit fa)
      (Rx.seq
        (Rx.opt (Rx.alt
          (Rx.lit (" and " ++ ref.second_author.getD "" ++ ",").toList) etAlTail))
        (Rx.seq (Rx.plus isPySpace) (Rx.lit yr)))
  else if (ref.year.getD "") ≠ "" ∧ (ref.first_author.getD "").length > 0 then
    Rx.seq (Rx.lit fa)
      (Rx.seq (Rx.opt etAlTail)
        (Rx.seq (Rx.plus isPySpace) (Rx.lit yr)))
  else
    Rx.seq (Rx.lit fa)
      (Rx.seq
        (Rx.opt (Rx.alt (Rx.seq (Rx.lit " and ".toList) (Rx.plus isAsciiAlpha))
          etAlTail))
        (Rx.seq (Rx.plus isPySpace)
          (Rx.seq (Rx.alt (Rx.lit "19".toList) (Rx.lit "20".toList))
            (Rx.seq (Rx.cls Char.isDigit) (Rx.cls Char.isDigit)))))

/-! ## nxmldoc.py: passage text rendering (`build_enhanced`, lines 418-526) -/

/-- The token substituted for an explicit bibliography cross-reference
(`<<REF:pmid>>`, `<<REF:author-year-vol-page>>`, or bare `<<REF>>` when the
`rid` does not resolve). -/
def refToken (refDict : List (Option String × RefD)) (rid : String) : List Char :=
  match dictGet refDict (some rid) with
  | some r =>
    if (r.pmid.getD "") ≠ "" then
      "<<REF:".toList ++ (r.pmid.getD "").toList ++ ">>".toList
    else
      "<<REF:".toList ++ (r.first_author.getD "???").toList ++ "-".toList ++
      (r.year.getD "?").toList ++ "-".toList ++ (r.vol.getD "?").toList ++
      "-".toList ++ (r.page.getD "?").toList ++ ">>".toList
  | none => "<<REF>>".toList

/-- The replacement text used by the regex fallback: the same token but
padded with one space on each side (`" <<REF:...>> "`, lines 496-503). -/
def refTokenPadded (ref : RefD) : List Char :=
  if (ref.pmid.getD "") ≠ "" then
    " <<REF:".toList ++ (ref.pmid.getD "").toList ++ ">> ".toList
  else
    " <<REF:".toList ++ (ref.first_author.getD "???").toList ++ "-".toList ++
    (ref.year.getD "?").toList ++ "-".toList ++ (ref.vol.getD "?").toList ++
    "-".toList ++ (ref.page.getD "?").toList ++ ">> ".toList

/-- The `so_text` computation of the enhanced build for one tiled
candidate `so` (nxmldoc.py lines 418-526): explicit piecewise substitution
when the interval contains bibliography cross-references, otherwise
figure substitution followed by per-entry regex fallback; both branches
finish with `html.unescape`. -/
def renderSoText (text : List Char) (so : Span) (all_xrefs : List Span)
    (refDict : List (Option String × RefD)) : List Char :=
  let ref_xrefs := all_xrefs.filter (fun x =>
    decide (so.start ≤ x.start) && decide (x.end_ ≤ so.end_) &&
    (x.element.refType == "bibr"))
  if ref_xrefs ≠ [] then
    let refbib_xrefs := all_xrefs.filter (fun x =>
      decide (so.start ≤ x.start) && decide (x.end_ ≤ so.end_) &&
      (x.element.refType == "bibr" || x.element.refType == "fig"))
    let step := refbib_xrefs.foldl (fun acc x =>
      if x.element.refType == "bibr" then
        (acc.1 ++ pyslice text acc.2 x.start ++ refToken refDict x.element.rid,
         x.end_)
      else
        (acc.1 ++ pyslice text acc.2 x.start ++ pyslice text x.start x.end_ ++
         " <<FIG:".toList ++ x.element.rid.toList ++ ">>".toList, x.end_))
      (([] : List Char), so.start)
    htmlUnescape (step.1 ++ pyslice text step.2 so.end_)
  else
    let fig_xrefs := all_xrefs.filter (fun x =>
      decide (so.start ≤ x.start) && decide (x.end_ ≤ so.end_) &&
      (x.element.refType == "fig"))
    let step := fig_xrefs.foldl (fun acc x =>
      (acc.1 ++ pyslice text acc.2 x.start ++ pyslice text x.start x.end_ ++
       " <<FIG:".toList ++ x.element.rid.toList ++ ">>".toList, x.end_))
      (([] : List Char), so.start)
    let base := htmlUnescape (step.1 ++ pyslice text step.2 so.end_)
    refDict.foldl (fun txt kv =>
      let pat := refPattern kv.2
      if rxSearch pat txt then rxSubAll pat (refTokenPadded kv.2) txt else txt)
      base

/-! ## nxmldoc.py: candidate selection, tiling, and the two builds

Standoff objects are mutated in place by the tiling loop, so spans are
addressed by their index into `doc.standoffs` and the loop is explicit
state passing over that list. -/

/-- Indices (in standoff order) of spans with the given raw tag: the
`this_doc_standoffs` lookup lists of `build_simple_document_dataframe`. -/
def idxsWithTag (doc : Doc) (tag : String) : List Nat :=
  (List.range doc.standoffs.length).filter (fun i =>
    (doc.standoffs.getD i default).element.tag == tag)

/-- The same lists for `build_enhanced_document_dataframe`, which strips
namespace prefixes before the lookup (line 375). -/
def idxsWithTagE (doc : Doc) (tag : String) : List Nat :=
  (List.range doc.standoffs.length).filter (fun i =>
    stripNsStr (doc.standoffs.getD i default).element.tag == tag)

/-- `self.text_tag_types`, split at the `/`. -/
def text_tag_types : List (String × String) :=
  [("front", "article-title"), ("front", "abstract"), ("body", "p"),
   ("body", "title"), ("body", "label"), ("back", "p"), ("back", "title")]

/-- Stable insertion by the start of the indexed span. -/
def insIdx (arr : List Span) (x : Nat) : List Nat → List Nat
  | [] => [x]
  | y :: ys =>
    if (arr.getD y default).start ≤ (arr.getD x default).start then
      y :: insIdx arr x ys
    else x :: y :: ys

/-- `sorted(text_so_list, key=lambda x: x.start)` over indices (stable). -/
def sortIdxs (arr : List Span) (cand : List Nat) : List Nat :=
  cand.foldl (fun acc i => insIdx arr i acc) []

/-- The tiling loop (nxmldoc.py lines 290-295 and 402-407): walk the
candidates in order and, whenever a candidate starts before the previous
candidate's recorded end, truncate the previous candidate's end to
`start - 1`, in place.  `some j` is the index of `last_so`. -/
def tileLoop : List Span → Option Nat → List Nat → List Span
  | arr, _, [] => arr
  | arr, last, i :: rest =>
    match last with
    | none => tileLoop arr (some i) rest
    | some j =>
      let sj := arr.getD j default
      let si := arr.getD i default
      let arr1 :=
        if si.start < sj.end_ then
          arr.set j { start := sj.start, end_ := si.start - 1,
                      element := sj.element }
        else arr
      tileLoop arr1 (some i) rest

/-- Candidate selection of the simple build (lines 274-283): for each
`(part, tag)` pair, skip the pair if no `part` span exists, else collect
the `tag` spans fully inside the first `part` span. -/
def selectSimple (doc : Doc) : List Nat :=
  text_tag_types.foldl (fun acc pt =>
    match idxsWithTag doc pt.1 with
    | [] => acc
    | pIdx :: _ =>
      let pSo := doc.standoffs.getD pIdx default
      acc ++ (idxsWithTag doc pt.2).filter (fun i =>
        let so := doc.standoffs.getD i default
        decide (pSo.start ≤ so.start) && decide (so.end_ ≤ pSo.end_))) []

/-- Candidate selection of the enhanced build (lines 388-395), which has
no empty-part guard: `this_doc_standoffs.get(part)[0]` raises `IndexError`
(modelled as `Except.error`) when a part has no span. -/
def selectEnh (doc : Doc) : Except Unit (List Nat) :=
  text_tag_types.foldlM (fun acc pt =>
    match idxsWithTagE doc pt.1 with
    | [] => Except.error ()
    | pIdx :: _ =>
      let pSo := doc.standoffs.getD pIdx default
      Except.ok (acc ++ (idxsWithTagE doc pt.2).filter (fun i =>
        let so := doc.standoffs.getD i default
        decide (pSo.start ≤ so.start) && decide (so.end_ ≤ pSo.end_)))) []

/-- One row of the output table. -/
structure Row where
  pmid : String
  paragraph_id : Nat
  tag : String
  top_section : Option String
  section_tree : String
  section_title : Option String
  offset : Int
  length : Int
  fig_ref : String
  plain_text : List Char
deriving DecidableEq, Inhabited

/-- The state of `self.standoffs` after `build_simple_document_dataframe`
returns: unchanged when the build bails out for lack of a `body` span,
otherwise the list with the tiling loop's in-place end truncations
applied (the candidate list aliases the document's standoffs). -/
def build_simple_tiled (doc : Doc) : List Span :=
  if idxsWithTag doc "body" = [] then doc.standoffs
  else tileLoop doc.standoffs none (sortIdxs doc.standoffs (selectSimple doc))

/-- One output row of the simple build (lines 297-319), including the
`TIAB` override for `article-title`/`abstract` candidates. -/
def mkSimpleRow (doc : Doc) (tiled : List Span) (localId : Nat) (so : Span) :
    Row :=
  let base : Row :=
    { pmid := doc.ft_id, paragraph_id := localId, tag := so.element.tag,
      top_section := get_top_level_sec_tag tiled so,
      section_tree := get_sec_tree tiled so,
      section_title := get_sec_tag tiled so,
      offset := so.start, length := so.end_ - so.start,
      fig_ref := get_figure_reference tiled so,
      plain_text := pyslice doc.text so.start so.end_ }
  if so.element.tag = "article-title" ∨ so.element.tag = "abstract" then
    { base with top_section := some "TIAB", section_tree := "TIAB",
                section_title := some "TIAB" }
  else base

/-- `build_simple_document_dataframe` (nxmldoc.py lines 251-345): `none`
models the Python `return None` taken when no `body` span exists. -/
def build_simple_document_dataframe (doc : Doc) : Option (List Row) :=
  if idxsWithTag doc "body" = [] then none
  else
    let sIdxs := sortIdxs doc.standoffs (selectSimple doc)
    let tiled := tileLoop doc.standoffs none sIdxs
    some (sIdxs.enum.map (fun p => mkSimpleRow doc tiled p.1 (tiled.getD p.2 default)))

/-- One output row of the enhanced build (lines 409-540): no `TIAB`
override, namespace-stripped tag, and the substituted passage text. -/
def mkEnhRow (doc : Doc) (tiled : List Span)
    (refDict : List (Option String × RefD)) (xrefs : List Span)
    (localId : Nat) (so : Span) : Row :=
  { pmid := doc.ft_id, paragraph_id := localId,
    tag := stripNsStr so.element.tag,
    top_section := get_top_level_sec_tag tiled so,
    section_tree := get_sec_tree tiled so,
    section_title := get_sec_tag tiled so,
    offset := so.start, length := so.end_ - so.start,
    fig_ref := get_figure_reference tiled so,
    plain_text := renderSoText doc.text so xrefs refDict }

/-- `build_enhanced_document_dataframe` (nxmldoc.py lines 347-562):
`Except.ok none` models the `return None` for a missing `body` span;
`Except.error` models the uncaught `IndexError` of the unguarded
`this_doc_standoffs.get(part)[0]`.  The `all_xrefs` spans are read after
the tiling loop has run, so their values are taken from the tiled list. -/
def build_enhanced_document_dataframe (doc : Doc) :
    Except Unit (Option (List Row)) :=
  if idxsWithTagE doc "body" = [] then Except.ok none
  else
    let refDict := extract_ref_dict_from_nxml doc.refs
    match selectEnh doc with
    | Except.error e => Except.error e
    | Except.ok cand =>
      let sIdxs := sortIdxs doc.standoffs cand
      let tiled := tileLoop doc.standoffs none sIdxs
      let xrefs := (idxsWithTagE doc "xref").map (fun i => tiled.getD i default)
      Except.ok (some (sIdxs.enum.map (fun p =>
        mkEnhRow doc tiled refDict xrefs p.1 (tiled.getD p.2 default))))

/-! ## rewritetex.py: `tex2str` and `process_tree`

The external `latex`/`catdvi` invocations and the UTF-8 decode are
modelled as an oracle.  `tex2str`'s control flow around them (lines
297-369) is embedded exactly; an uncaught Python exception is
`Except.error`. -/

inductive PyExc where
  | attrError : PyExc
  | typeError : PyExc
deriving DecidableEq

/-- Outcomes of the external tools for one fragment: `compileOut` is
`tex_compile`'s result (`none` = compilation failure), `catdviOut` is
`run_catdvi`'s raw bytes (`none` = invocation failure), `decodeUtf8` is
the UTF-8 decode (`none` = `UnicodeDecodeError`). -/
structure TexToolOracle where
  compileOut : Option String
  catdviOut : Option (List Nat)
  decodeUtf8 : List Nat → Option (List Char)

/-- `tex2str` (rewritetex.py lines 297-369).  On compile failure it
returns `None` (`.ok none`).  When `run_catdvi` returned `None`, the
unguarded `dvistr.decode(...)` raises `AttributeError`.  When the decode
raises `UnicodeDecodeError`, the handler only prints a warning and leaves
`dvistr` as `bytes`, so the following `re.sub(r"\s+", " ", dvistr)` with a
`str` pattern raises `TypeError` (and the preceding `dvistr == ""` check
is `False` for every `bytes` value).  Empty decoded output returns `None`;
otherwise the text is whitespace-normalized and returned. -/
def tex2str (o : TexToolOracle) : Except PyExc (Option (List Char)) :=
  match o.compileOut with
  | none => Except.ok none
  | some _ =>
    match o.catdviOut with
    | none => Except.error PyExc.attrError
    | some bs =>
      match o.decodeUtf8 bs with
      | none => Except.error PyExc.typeError
      | some s =>
        if s = [] then Except.ok none
        else Except.ok (some (trimEnd (trimStart (collapseWs s))))

/-- A `<tex-math>` element as `process_tree` manipulates it. -/
structure TexElem where
  tag : String
  text : List Char
  origTag : Option String := none
  origText : Option (List Char) := none
deriving DecidableEq

/-- `rewrite_tex_element` (lines 372-395): store the original tag/text in
the reserved attributes and swap in the rendered text under the sentinel
tag. -/
def rewrite_tex_element (e : TexElem) (s : List Char) : TexElem :=
  { e with origText := some e.text, origTag := some e.tag,
           text := s, tag := "n2t-tex" }

/-- Python `d.get(k)` on the cache map. -/
def cacheGet (cache : List (List Char × List Char)) (k : List Char) :
    Option (List Char) :=
  (cache.find? (fun kv => kv.1 == k)).map (fun kv => kv.2)

/-- Python `d[k] = v` on the cache map. -/
def cacheSet (k v : List Char) :
    List (List Char × List Char) → List (List Char × List Char)
  | [] => [(k, v)]
  | kv :: rest => if kv.1 = k then (k, v) :: rest else kv :: cacheSet k v rest

/-- The loop body of `process_tree` (rewritetex.py lines 435-463) for one
element, given the conversion `conv` (which is `tex2str` with the tools'
outcomes for that fragment).  On a cache hit the element is rewritten from
the cache; on a miss, a failed conversion (`None` or the empty string)
caches nothing and leaves the element untouched; a successful one caches
the result under the normalized key and rewrites the element.  An
exception from `conv` propagates. -/
def processStep (conv : List Char → Except PyExc (Option (List Char)))
    (st : List (List Char × List Char) × List TexElem) (e : TexElem) :
    Except PyExc (List (List Char × List Char) × List TexElem) :=
  let texNorm := normalize_tex e.text
  match cacheGet st.1 texNorm with
  | some mapped => Except.ok (st.1, st.2 ++ [rewrite_tex_element e mapped])
  | none =>
    match conv e.text with
    | Except.error exc => Except.error exc
    | Except.ok none => Except.ok (st.1, st.2 ++ [e])
    | Except.ok (some s) =>
      if s = [] then Except.ok (st.1, st.2 ++ [e])
      else Except.ok (cacheSet texNorm s st.1, st.2 ++ [rewrite_tex_element e s])

/-- `process_tree` (lines 425-465) over the document's `tex-math`
elements: threads the cache through the loop; an exception aborts the
whole traversal (there is no handler in the pipeline for it). -/
def process_tree (conv : List Char → Except PyExc (Option (List Char)))
    (cache : List (List Char × List Char)) (elems : List TexElem) :
    Except PyExc (List (List Char × List Char) × List TexElem) :=
  elems.foldlM (processStep conv) (cache, [])

/-! # Helper lemmas: the tiling loop -/

/-- `List.set` keeps the `start` of every position when the written span
has the `start` of the overwritten one. -/
lemma getD_set_start : ∀ (l : List Span) (j k : Nat) (v : Span),
    v.start = (l.getD j default).start →
    ((l.set j v).getD k default).start = (l.getD k default).start
  | [], _, _, _, _ => rfl
  | _ :: _, 0, 0, _, hv => hv
  | _ :: _, 0, _ + 1, _, _ => rfl
  | _ :: _, _ + 1, 0, _, _ => rfl
  | _ :: xs, j + 1, k + 1, v, hv => getD_set_start xs j k v hv

/-- `List.set` can only lower the `end_` of a position when the written
span's `end_` is at most the overwritten one's. -/
lemma getD_set_end_le : ∀ (l : List Span) (j k : Nat) (v : Span),
    v.end_ ≤ (l.getD j default).end_ →
    ((l.set j v).getD k default).end_ ≤ (l.getD k default).end_
  | [], _, _, _, _ => le_refl _
  | _ :: _, 0, 0, _, hv => hv
  | _ :: _, 0, _ + 1, _, _ => le_refl _
  | _ :: _, _ + 1, 0, _, _ => le_refl _
  | _ :: xs, j + 1, k + 1, v, hv => getD_set_end_le xs j k v hv

/-- Reading back the span just written (in range). -/
lemma getD_set_self : ∀ (l : List Span) (j : Nat) (v : Span), j < l.length →
    (l.set j v).getD j default = v
  | [], j, _, h => absurd h (by simp)
  | _ :: _, 0, _, _ => rfl
  | _ :: xs, j + 1, v, h => getD_set_self xs j v (by simpa using h)

/-- The truncated copy of the span at index `j` written by one tiling
step whose incoming candidate is the span at index `i`. -/
def truncSpan (arr : List Span) (j i : Nat) : Span :=
  { start := (arr.getD j default).start,
    end_ := (arr.getD i default).start - 1,
    element := (arr.getD j default).element }

/-- Unfolding of one tiling step. -/
lemma tileLoop_cons_some (arr : List Span) (j i : Nat) (rest : List Nat) :
    tileLoop arr (some j) (i :: rest) =
      tileLoop (if (arr.getD i default).start < (arr.getD j default).end_
        then arr.set j (truncSpan arr j i) else arr) (some i) rest := rfl

/-- The tiling loop never changes the length of the standoff list. -/
lemma tileLoop_length : ∀ (idxs : List Nat) (arr : List Span) (last : Option Nat),
    (tileLoop arr last idxs).length = arr.length
  | [], _, _ => rfl
  | i :: rest, arr, none => tileLoop_length rest arr (some i)
  | i :: rest, arr, some j => by
    rw [tileLoop_cons_some, tileLoop_length rest]
    split <;> simp

/-- The tiling loop never changes any span's `start`. -/
lemma tileLoop_start : ∀ (idxs : List Nat) (arr : List Span) (last : Option Nat)
    (k : Nat),
    ((tileLoop arr last idxs).getD k default).start = (arr.getD k default).start
  | [], _, _, _ => rfl
  | i :: rest, arr, none, k => tileLoop_start rest arr (some i) k
  | i :: rest, arr, some j, k => by
    rw [tileLoop_cons_some, tileLoop_start rest]
    split
    · exact getD_set_start arr j k (truncSpan arr j i) rfl
    · rfl

/-- The tiling loop only ever lowers a span's `end_`. -/
lemma tileLoop_end_le : ∀ (idxs : List Nat) (arr : List Span) (last : Option Nat)
    (k : Nat),
    ((tileLoop arr last idxs).getD k default).end_ ≤ (arr.getD k default).end_
  | [], _, _, _ => le_refl _
  | i :: rest, arr, none, k => tileLoop_end_le rest arr (some i) k
  | i :: rest, arr, some j, k => by
    rw [tileLoop_cons_some]
    refine le_trans (tileLoop_end_le rest _ (some i) k) ?_
    split
    · rename_i hlt
      refine getD_set_end_le arr j k (truncSpan arr j i) ?_
      change (arr.getD i default).start - 1 ≤ (arr.getD j default).end_
      omega
    · exact le_refl _

/-- The spans addressed by an index list. -/
def valuesAt (arr : List Span) (idxs : List Nat) : List Span :=
  idxs.map (fun i => arr.getD i default)

/-- Core invariant of the tiling loop: after the walk, each candidate's
final `end_` is at most the next candidate's (unchanged) `start`. -/
lemma tileLoop_chain : ∀ (idxs : List Nat) (arr : List Span) (j : Nat),
    j < arr.length → (∀ i ∈ idxs, i < arr.length) →
    List.Chain' (fun a b => a.end_ ≤ b.start)
      (valuesAt (tileLoop arr (some j) idxs) (j :: idxs))
  | [], arr, j, _, _ => by simp [tileLoop, valuesAt]
  | i :: rest, arr, j, hj, hmem => by
    have hi : i < arr.length := hmem i (by simp)
    have hrest : ∀ a ∈ rest, a < arr.length := fun a ha => hmem a (by simp [ha])
    rw [tileLoop_cons_some]
    set arr1 := (if (arr.getD i default).start < (arr.getD j default).end_
        then arr.set j (truncSpan arr j i) else arr) with harr1
    have hlen : arr1.length = arr.length := by
      rw [harr1]; split <;> simp
    have hchain : List.Chain' (fun a b => a.end_ ≤ b.start)
        (valuesAt (tileLoop arr1 (some i) rest) (i :: rest)) :=
      tileLoop_chain rest arr1 i (hlen ▸ hi) (fun a ha => hlen ▸ hrest a ha)
    have hstep : (arr1.getD j default).end_ ≤ (arr1.getD i default).start := by
      rw [harr1]; split
      · rename_i hlt
        rw [getD_set_self arr j (truncSpan arr j i) hj,
          getD_set_start arr j i (truncSpan arr j i) rfl]
        change (arr.getD i default).start - 1 ≤ (arr.getD i default).start
        omega
      · rename_i hge
        omega
    have hR : ((tileLoop arr1 (some i) rest).getD j default).end_
        ≤ ((tileLoop arr1 (some i) rest).getD i default).start := by
      refine le_trans (tileLoop_end_le rest arr1 (some i) j) ?_
      rw [tileLoop_start rest arr1 (some i) i]
      exact hstep
    exact List.Chain'.cons hR hchain

/-- Membership in a stable index insertion. -/
lemma insIdx_mem : ∀ (l : List Nat) (arr : List Span) (x a : Nat),
    a ∈ insIdx arr x l → a = x ∨ a ∈ l
  | [], _, x, a, h => by simpa [insIdx] using h
  | y :: ys, arr, x, a, h => by
    by_cases hc : (arr.getD y default).start ≤ (arr.getD x default).start
    · rw [insIdx, if_pos hc] at h
      rcases List.mem_cons.mp h with h1 | h2
      · exact Or.inr (by simp [h1])
      · rcases insIdx_mem ys arr x a h2 with h3 | h4
        · exact Or.inl h3
        · exact Or.inr (by simp [h4])
    · rw [insIdx, if_neg hc] at h
      rcases List.mem_cons.mp h with h1 | h2
      · exact Or.inl h1
      · exact Or.inr h2

/-- Sorting the candidate indices introduces no new index. -/
lemma sortIdxs_sub (arr : List Span) (cand : List Nat) :
    ∀ a ∈ sortIdxs arr cand, a ∈ cand := by
  have key : ∀ (c acc : List Nat) (a : Nat),
      a ∈ c.foldl (fun acc i => insIdx arr i acc) acc → a ∈ acc ∨ a ∈ c := by
    intro c
    induction c with
    | nil => intro acc a h; exact Or.inl h
    | cons x xs ih =>
      intro acc a h
      rcases ih (insIdx arr x acc) a h with h1 | h2
      · rcases insIdx_mem acc arr x a h1 with h3 | h4
        · exact Or.inr (by simp [h3])
        · exact Or.inl h4
      · exact Or.inr (by simp [h2])
  intro a ha
  rcases key cand [] a ha with h1 | h2
  · simp at h1
  · exact h2

/-- C1: after the tiling step of passage assembly (sorting the candidate
spans by `start` and truncating the previous candidate's `end` to
`start - 1` whenever a candidate's start falls before the previous
candidate's recorded end), every pair of adjacent candidates `(a, b)` in
start order satisfies `a.end_ ≤ b.start`. -/
theorem tiling_invariant (arr : List Span) (cand : List Nat)
    (h : ∀ i ∈ cand, i < arr.length) :
    List.Chain' (fun a b => a.end_ ≤ b.start)
      (valuesAt (tileLoop arr none (sortIdxs arr cand)) (sortIdxs arr cand)) := by
  have hmem : ∀ i ∈ sortIdxs arr cand, i < arr.length :=
    fun i hi => h i (sortIdxs_sub arr cand i hi)
  cases hs : sortIdxs arr cand with
  | nil => simp [tileLoop, valuesAt]
  | cons a rest =>
    have ha : a < arr.length := hmem a (by rw [hs]; simp)
    have hrest : ∀ i ∈ rest, i < arr.length :=
      fun i hi => hmem i (by rw [hs]; simp [hi])
    show List.Chain' _ (valuesAt (tileLoop arr none (a :: rest)) (a :: rest))
    exact tileLoop_chain rest arr a ha hrest

/-- Concrete witness for `tiling_invariant`: two nested paragraph spans. -/
def spanP1 : Span := { start := 10, end_ := 50, element := { tag := "p" } }

/-- Second witness span, nested inside the first. -/
def spanP2 : Span := { start := 20, end_ := 30, element := { tag := "p" } }

theorem tiling_invariant_witness :
    (∀ i ∈ [0, 1], i < ([spanP1, spanP2] : List Span).length) ∧
    List.Chain' (fun a b => a.end_ ≤ b.start)
      (valuesAt (tileLoop [spanP1, spanP2] none (sortIdxs [spanP1, spanP2] [0, 1]))
        (sortIdxs [spanP1, spanP2] [0, 1])) :=
  ⟨by decide, tiling_invariant [spanP1, spanP2] [0, 1] (by decide)⟩

/-! # C10: the cache-serialization wrappers are mutually inverse -/

/-- `chr (ord c) = c`, lifted to lists. -/
lemma map_ofNat_toNat : ∀ (l : List Char),
    (l.map Char.toNat).map Char.ofNat = l
  | [] => rfl
  | c :: cs => by
    rw [List.map_cons, List.map_cons, Char.ofNat_toNat, map_ofNat_toNat cs]

/-- C10: the cache-serialization wrappers are mutually inverse on valid
input: for every dict `d` mapping keys to strings,
`unordall (ordall d) = d`, so a cache map survives the pickling
encode/decode round-trip unchanged. -/
theorem ordall_unordall_roundtrip (d : List (String × String)) :
    unordall (ordall d) = d := by
  induction d with
  | nil => rfl
  | cons kv rest ih =>
    show (kv.1, ((kv.2.toList.map Char.toNat).map Char.ofNat).asString) ::
        unordall (ordall rest) = kv :: rest
    rw [ih, map_ofNat_toNat]
    rfl

/-! # C2: document without a body-container span -/

/-- A document whose standoffs contain no body-container span. -/
def docNoBody : Doc :=
  { ft_id := "d0", text := "hello".toList,
    standoffs := [{ start := 0, end_ := 5, element := { tag := "p" } }],
    refs := [] }

/-- C2 counterexample: on a document without a body-container span the
passage-assembly operations do not return an empty table (zero rows) —
they return Python `None` (though indeed without raising). -/
theorem missing_body_empty_table_cex :
    build_simple_document_dataframe docNoBody ≠ some [] ∧
    build_simple_document_dataframe docNoBody = none ∧
    build_enhanced_document_dataframe docNoBody = Except.ok none := by
  refine ⟨by decide, by decide, by decide⟩

/-- A raw `body` tag is also a namespace-stripped `body` tag, so the
enhanced build's body test failing implies the simple build's does too. -/
lemma idxsWithTag_body_sub (doc : Doc) (h : idxsWithTagE doc "body" = []) :
    idxsWithTag doc "body" = [] := by
  unfold idxsWithTag
  unfold idxsWithTagE at h
  rw [List.filter_eq_nil_iff] at h ⊢
  intro i hi hraw
  apply h i hi
  have htag : (doc.standoffs.getD i default).element.tag = "body" := by
    simpa using hraw
  rw [htag]
  decide

/-- C2 amended: for every document whose standoffs contain no
body-container span, `build_simple_document_dataframe` and
`build_enhanced_document_dataframe` return Python `None` — a "skip this
document" signal rather than an empty passage table — and do not raise. -/
theorem missing_body_returns_none (doc : Doc)
    (h : idxsWithTagE doc "body" = []) :
    build_simple_document_dataframe doc = none ∧
    build_enhanced_document_dataframe doc = Except.ok none := by
  refine ⟨?_, ?_⟩
  · unfold build_simple_document_dataframe
    rw [if_pos (idxsWithTag_body_sub doc h)]
  · unfold build_enhanced_document_dataframe
    rw [if_pos h]

theorem missing_body_returns_none_witness :
    idxsWithTagE docNoBody "body" = [] ∧
    (build_simple_document_dataframe docNoBody = none ∧
     build_enhanced_document_dataframe docNoBody = Except.ok none) :=
  ⟨by decide, missing_body_returns_none docNoBody (by decide)⟩

/-! # C9: what the builds mutate -/

/-- The state of `self.standoffs` after `build_enhanced_document_dataframe`
returns (unchanged when it bails out before the tiling loop). -/
def build_enhanced_tiled (doc : Doc) : List Span :=
  if idxsWithTagE doc "body" = [] then doc.standoffs
  else
    match selectEnh doc with
    | Except.error _ => doc.standoffs
    | Except.ok cand => tileLoop doc.standoffs none (sortIdxs doc.standoffs cand)

/-- `List.set` with a span agreeing on `start` and `element` leaves the
`(start, element)` image of the list unchanged. -/
lemma map_startElem_set : ∀ (l : List Span) (j : Nat) (v : Span),
    v.start = (l.getD j default).start →
    v.element = (l.getD j default).element →
    (l.set j v).map (fun s => (s.start, s.element)) =
      l.map (fun s => (s.start, s.element))
  | [], _, _, _, _ => rfl
  | x :: xs, 0, v, h1, h2 => by
    show (v.start, v.element) :: _ = (x.start, x.element) :: _
    rw [show v.start = x.start from h1, show v.element = x.element from h2]
  | x :: xs, j + 1, v, h1, h2 => by
    show (x.start, x.element) :: (xs.set j v).map _ =
      (x.start, x.element) :: xs.map _
    rw [map_startElem_set xs j v h1 h2]

/-- The tiling loop changes no span's `start` or `element`. -/
lemma tileLoop_map_startElem : ∀ (idxs : List Nat) (arr : List Span)
    (last : Option Nat),
    (tileLoop arr last idxs).map (fun s => (s.start, s.element)) =
      arr.map (fun s => (s.start, s.element))
  | [], _, _ => rfl
  | i :: rest, arr, none => tileLoop_map_startElem rest arr (some i)
  | i :: rest, arr, some j => by
    rw [tileLoop_cons_some, tileLoop_map_startElem rest]
    split
    · exact map_startElem_set arr j (truncSpan arr j i) rfl rfl
    · rfl

/-- A document with a body-container span and two nested paragraph spans:
tiling truncates the outer paragraph's end in place. -/
def docC9 : Doc :=
  { ft_id := "d9", text := (String.mk (List.replicate 100 'x')).toList,
    standoffs :=
      [{ start := 0, end_ := 100, element := { tag := "body" } },
       { start := 10, end_ := 50, element := { tag := "p" } },
       { start := 20, end_ := 30, element := { tag := "p" } }],
    refs := [] }

/-- C9 counterexample: building the simple passage table mutates the
document's standoffs (the tiling loop truncates the `end` of the outer of
two overlapping candidate spans in place), so the Document is not
immutable once built. -/
theorem build_mutates_span_end_cex :
    build_simple_tiled docC9 ≠ docC9.standoffs := by decide

/-- C9 amended: the passage-table builds do mutate the Document — the
tiling loop truncates the `end` fields of overlapping candidate spans in
place — but that is the only mutation: every span's `start` and
originating element are preserved by both builds, and no operation of the
model writes the Document's text. -/
theorem build_preserves_start_and_element (doc : Doc) :
    (build_simple_tiled doc).map (fun s => (s.start, s.element)) =
      doc.standoffs.map (fun s => (s.start, s.element)) ∧
    (build_enhanced_tiled doc).map (fun s => (s.start, s.element)) =
      doc.standoffs.map (fun s => (s.start, s.element)) := by
  constructor
  · unfold build_simple_tiled
    split
    · rfl
    · exact tileLoop_map_startElem _ _ _
  · unfold build_enhanced_tiled
    split
    · rfl
    · split
      · rfl
      · exact tileLoop_map_startElem _ _ _

/-! # C8: `get_top_level_sec_tag` -/

/-- Outer section span carrying neither a `sec-type` attribute nor a
title. -/
def secOuter : Span := { start := 0, end_ := 100, element := { tag := "sec" } }

/-- Inner section span carrying a title. -/
def secInner : Span :=
  { start := 10, end_ := 50,
    element := { tag := "sec", title := some (some "Methods") } }

/-- A paragraph span nested in both sections. -/
def tC8 : Span := { start := 20, end_ := 30, element := { tag := "p" } }

/-- The standoffs of the C8 scenario. -/
def standoffsC8 : List Span := [secOuter, secInner, tC8]

/-- C8 counterexample: the first (outermost) enclosing section carries
neither a section-type attribute nor a title, so by the claim the
derivation should return the empty string; the code instead skips that
section and returns the inner section's title. -/
theorem top_level_sec_skip_cex :
    get_top_level_sec_tag standoffsC8 tC8 ≠ some "" ∧
    get_top_level_sec_tag standoffsC8 tC8 = some "Methods" :=
  ⟨by decide, by decide⟩

/-- The loop of `get_top_level_sec_tag` returns the answer of the first
enclosing `sec` that carries a truthy `sec-type` or a title element,
skipping `sec` elements that carry neither; only when no enclosing `sec`
carries either does it return the empty string. -/
lemma topLoop_find : ∀ (l : List Span),
    topLoop l =
      match l.find? (fun s => (s.element.tag == "sec") &&
          ((s.element.secType != "") || s.element.title.isSome)) with
      | some s =>
        if s.element.secType ≠ "" then some s.element.secType
        else s.element.title.getD none
      | none => some ""
  | [] => rfl
  | s :: rest => by
    by_cases htag : s.element.tag = "sec"
    · by_cases hst : s.element.secType = ""
      · cases ht : s.element.title with
        | none =>
          rw [List.find?_cons_of_neg _ (by simp [htag, hst, ht])]
          rw [topLoop, if_pos htag, if_neg (by simp [hst]), ht]
          exact topLoop_find rest
        | some txt =>
          rw [List.find?_cons_of_pos _ (by simp [htag, ht])]
          rw [topLoop, if_pos htag, if_neg (by simp [hst]), ht]
          simp [hst, ht]
      · rw [List.find?_cons_of_pos _ (by simp [htag, hst])]
        rw [topLoop, if_pos htag, if_pos hst]
        simp [hst]
    · rw [List.find?_cons_of_neg _ (by simp [htag])]
      rw [topLoop, if_neg htag]
      exact topLoop_find rest

/-- C8 amended: the top-level-section derivation scans the enclosing
elements outer to inner and returns, for the first enclosing section that
carries a truthy declared section-type or a title element, its
section-type if present else its title text; enclosing sections carrying
neither field are skipped (rather than terminating the scan), and the
empty string is returned only when no enclosing section carries either
field. -/
theorem top_level_sec_first_match (standoffs : List Span) (t : Span) :
    get_top_level_sec_tag standoffs t =
      match (hits standoffs t).find? (fun s => (s.element.tag == "sec") &&
          ((s.element.secType != "") || s.element.title.isSome)) with
      | some s =>
        if s.element.secType ≠ "" then some s.element.secType
        else s.element.title.getD none
      | none => some "" :=
  topLoop_find (hits standoffs t)

/-! # C3: first and second author extraction -/

/-- A bibliography entry with exactly one surname descendant. -/
def refOneSurname : RefSrc :=
  { id := some "r1", tags := [{ name := "surname", text := "Smith" }] }

/-- A bibliography entry with three surname descendants. -/
def refThreeSurnames : RefSrc :=
  { id := some "r2",
    tags := [{ name := "surname", text := "Adams" },
             { name := "surname", text := "Baker" },
             { name := "surname", text := "Clark" }] }

/-- C3 counterexample: with exactly one surname descendant,
`second_author` is not left unset — the two sequential `if` statements
set it to that same surname; and with three surnames `second_author` is
the third (last) surname, not the second. -/
theorem ref_authors_cex :
    (extractRefEntry refOneSurname).second_author = some "Smith" ∧
    (extractRefEntry refOneSurname).second_author ≠ none ∧
    (extractRefEntry refThreeSurnames).second_author = some "Clark" ∧
    (extractRefEntry refThreeSurnames).second_author ≠ some "Baker" :=
  ⟨by decide, by decide, by decide, by decide⟩

/-- The surname descendants of a ref, in document order. -/
def surnameTags (tags : List TagNode) : List TagNode :=
  tags.filter (fun t => t.name == "surname")

/-- The `elif` chain touches neither author-name field. -/
lemma stepFields_keep (d : RefD) (t : TagNode) :
    (stepFields d t).first_author = d.first_author ∧
    (stepFields d t).second_author = d.second_author := by
  unfold stepFields
  split_ifs <;> first | exact ⟨rfl, rfl⟩ | (split <;> exact ⟨rfl, rfl⟩)

/-- The free-text author statements touch neither author-name field. -/
lemma stepAuthor_keep (d : RefD) (t : TagNode) :
    (stepAuthor d t).first_author = d.first_author ∧
    (stepAuthor d t).second_author = d.second_author := by
  unfold stepAuthor
  split_ifs <;> exact ⟨rfl, rfl⟩

/-- The comma-separator statement touches neither author-name field. -/
lemma stepName_keep (d : RefD) (t : TagNode) :
    (stepName d t).first_author = d.first_author ∧
    (stepName d t).second_author = d.second_author := by
  unfold stepName
  split_ifs <;> exact ⟨rfl, rfl⟩

/-- `stepSurname2` leaves `first_author` unchanged. -/
lemma stepSurname2_first (d : RefD) (t : TagNode) :
    (stepSurname2 d t).first_author = d.first_author := by
  unfold stepSurname2
  split_ifs <;> rfl

/-- `stepSurname1` leaves `second_author` unchanged. -/
lemma stepSurname1_second (d : RefD) (t : TagNode) :
    (stepSurname1 d t).second_author = d.second_author := by
  unfold stepSurname1
  split_ifs <;> rfl

/-- `first_author` after one descendant step. -/
lemma stepRef_first (d : RefD) (t : TagNode) :
    (stepRef d t).first_author =
      if t.name = "surname" ∧ d.first_author = none then some (escQuote t.text)
      else d.first_author := by
  rw [stepRef, (stepFields_keep _ t).1, (stepAuthor_keep _ t).1,
    (stepName_keep _ t).1, stepSurname2_first, stepSurname1]
  split_ifs <;> rfl

/-- `second_author` after one descendant step: every surname overwrites
it (the first surname has just set `first_author`, so the second `if`
fires on it as well). -/
lemma stepRef_second (d : RefD) (t : TagNode) :
    (stepRef d t).second_author =
      if t.name = "surname" then some (escQuote t.text) else d.second_author := by
  rw [stepRef, (stepFields_keep _ t).2, (stepAuthor_keep _ t).2,
    (stepName_keep _ t).2]
  by_cases hs : t.name = "surname"
  · rw [if_pos hs]
    have hne : (stepSurname1 d t).first_author ≠ none := by
      rw [stepSurname1]
      by_cases hf : d.first_author = none
      · rw [if_pos ⟨hs, hf⟩]
        simp
      · rw [if_neg (by simp [hf])]
        exact hf
    rw [stepSurname2, if_pos ⟨hs, hne⟩]
  · rw [if_neg hs, stepSurname2, if_neg (by simp [hs]), stepSurname1_second]

/-- `first_author` over the whole descendant fold: the first surname
(unless already set). -/
lemma foldRef_first : ∀ (tags : List TagNode) (d : RefD),
    (tags.foldl stepRef d).first_author =
      (match d.first_author with
       | some a => some a
       | none => (surnameTags tags).head?.map (fun t => escQuote t.text))
  | [], d => by cases hf : d.first_author <;> simp [hf, surnameTags]
  | t :: rest, d => by
    rw [List.foldl_cons, foldRef_first rest (stepRef d t), stepRef_first]
    by_cases hs : t.name = "surname"
    · cases hf : d.first_author with
      | none => simp [hs, hf, surnameTags]
      | some a => simp [hs, hf, surnameTags]
    · cases hf : d.first_author with
      | none => simp [hs, hf, surnameTags]
      | some a => simp [hs, hf, surnameTags]

/-- `second_author` over the whole descendant fold: the last surname. -/
lemma foldRef_second : ∀ (tags : List TagNode) (d : RefD),
    (tags.foldl stepRef d).second_author =
      (match (surnameTags tags).getLast? with
       | some u => some (escQuote u.text)
       | none => d.second_author)
  | [], d => by simp [surnameTags]
  | t :: rest, d => by
    rw [List.foldl_cons, foldRef_second rest (stepRef d t), stepRef_second]
    by_cases hs : t.name = "surname"
    · have hcons : surnameTags (t :: rest) = t :: surnameTags rest := by
        simp [surnameTags, hs]
      rw [hcons, if_pos hs]
      cases hsr : surnameTags rest with
      | nil => simp
      | cons a l =>
        rw [List.getLast?_cons_cons]
        cases h2 : (a :: l).getLast? with
        | none => simp at h2
        | some u => rfl
    · have hskip : surnameTags (t :: rest) = surnameTags rest := by
        simp [surnameTags, hs]
      rw [hskip, if_neg hs]

/-- C3 amended: for every bibliography-entry element, `first_author` is
the (quote-escaped) text of the first surname descendant in document
order, but `second_author` is overwritten by every surname once
`first_author` is set — including the first surname itself — so it ends
as the text of the *last* surname descendant: it equals the second
surname only when there are exactly two, and with exactly one surname it
is set to that same surname rather than left unset. -/
theorem ref_authors_first_last (r : RefSrc) :
    (extractRefEntry r).first_author =
      (surnameTags r.tags).head?.map (fun t => escQuote t.text) ∧
    (extractRefEntry r).second_author =
      (surnameTags r.tags).getLast?.map (fun t => escQuote t.text) := by
  constructor
  · rw [extractRefEntry, foldRef_first]
  · rw [extractRefEntry, foldRef_second]
    cases h : (surnameTags r.tags).getLast? <;> simp [h]

/-! # C4: `normalize_tex` -/

/-- C4 counterexample input: removing the `\setlength` declaration splices
the surrounding text into a new `\usepackage` declaration that only a
second normalization pass removes. -/
def texCexInput : List Char := "\\usepack\\setlengthage\x7bx\x7d".toList

/-- C4 counterexample: `normalize_tex` is not idempotent on every string.
One pass turns the input into a fresh boilerplate declaration; the second
pass removes it. -/
theorem normalize_tex_not_idempotent_cex :
    normalize_tex (normalize_tex texCexInput) ≠ normalize_tex texCexInput ∧
    normalize_tex texCexInput = "\\usepackage\x7bx\x7d".toList ∧
    normalize_tex (normalize_tex texCexInput) = [] :=
  ⟨by decide, by decide, by decide⟩

/-- `texstdpack_re` cannot match at a position not starting with `\`. -/
lemma stdpackMatchAt_ne (c : Char) (cs : List Char) (h : ¬c = '\\') :
    stdpackMatchAt (c :: cs) = none := by
  unfold stdpackMatchAt
  rw [List.findSome?_eq_none_iff]
  intro pat hpat
  have hh : pat.head? = some '\\' :=
    (show ∀ p ∈ stdpackAlts, p.head? = some '\\' by decide) pat hpat
  cases pat with
  | nil => simp at hh
  | cons p ps =>
    have hp : p = '\\' := by simpa using hh
    subst hp
    unfold litAfter
    rw [if_neg (fun he => h he.symm)]

/-- `texdecl_re` cannot match at a position not starting with `\`. -/
lemma declMatchAt_ne (c : Char) (cs : List Char) (h : ¬c = '\\') :
    declMatchAt (c :: cs) = none := by
  simp only [declMatchAt]
  rw [if_neg h]

/-- The empty-replacement scanner is the identity on backslash-free
strings when its pattern needs a leading backslash. -/
lemma subEmptyF_id (matchAt : List Char → Option (List Char))
    (hma : ∀ c cs, ¬c = '\\' → matchAt (c :: cs) = none) :
    ∀ (fuel : Nat) (s : List Char), '\\' ∉ s → subEmptyF matchAt fuel s = s
  | 0, _, _ => rfl
  | _ + 1, [], _ => rfl
  | fuel + 1, c :: rest, h => by
    have hc : ¬c = '\\' := fun hx => h (by simp [hx])
    show (match matchAt (c :: rest) with
      | some s1 => subEmptyF matchAt fuel s1
      | none => c :: subEmptyF matchAt fuel rest) = c :: rest
    rw [hma c rest hc, subEmptyF_id matchAt hma fuel rest
      (fun hr => h (List.mem_cons_of_mem c hr))]

/-- `texstdpack_re.sub` is the identity on backslash-free strings. -/
lemma stdpackSub_id (s : List Char) (h : '\\' ∉ s) : stdpackSub s = s :=
  subEmptyF_id stdpackMatchAt stdpackMatchAt_ne (s.length + 1) s h

/-- `texdecl_re.sub` is the identity on backslash-free strings. -/
lemma declSub_id (s : List Char) (h : '\\' ∉ s) : declSub s = s :=
  subEmptyF_id declMatchAt declMatchAt_ne (s.length + 1) s h

/-- Whitespace collapse only introduces spaces. -/
lemma collapseA_mem : ∀ (s : List Char) (b : Bool) (c : Char),
    c ∈ collapseA b s → c = ' ' ∨ c ∈ s
  | [], b, c, h => by simp [collapseA] at h
  | d :: rest, b, c, h => by
    have h' : c ∈ (if isPySpace d then
        (if b then collapseA true rest else ' ' :: collapseA true rest)
      else d :: collapseA false rest) := h
    by_cases hd : isPySpace d = true
    · rw [if_pos hd] at h'
      cases b with
      | true =>
        rcases collapseA_mem rest true c (by simpa using h') with h1 | h2
        · exact Or.inl h1
        · exact Or.inr (List.mem_cons_of_mem d h2)
      | false =>
        rcases List.mem_cons.mp (by simpa using h') with h1 | h2
        · exact Or.inl h1
        · rcases collapseA_mem rest true c h2 with h3 | h4
          · exact Or.inl h3
          · exact Or.inr (List.mem_cons_of_mem d h4)
    · rw [if_neg hd] at h'
      rcases List.mem_cons.mp h' with h1 | h2
      · exact Or.inr (by simp [h1])
      · rcases collapseA_mem rest false c h2 with h3 | h4
        · exact Or.inl h3
        · exact Or.inr (List.mem_cons_of_mem d h4)

/-- Leading-trim only removes characters. -/
lemma trimStart_subset (s : List Char) : ∀ c ∈ trimStart s, c ∈ s :=
  fun _ hc => (List.dropWhile_suffix isPySpace).subset hc

/-- Trailing-trim only removes characters. -/
lemma trimEnd_subset (s : List Char) : ∀ c ∈ trimEnd s, c ∈ s := by
  intro c hc
  unfold trimEnd at hc
  rw [List.mem_reverse] at hc
  have h2 := (List.dropWhile_suffix isPySpace (l := s.reverse)).subset hc
  simpa using h2

/-- Shape invariant of collapsed text, threaded with the "previous
character was a space" flag: all whitespace is a single plain space and
no two spaces are adjacent (and no leading space when the flag is set). -/
def goodB : Bool → List Char → Bool
  | _, [] => true
  | b, c :: rest =>
    if isPySpace c then (c == ' ') && !b && goodB true rest
    else goodB false rest

/-- Whitespace collapse establishes the shape invariant. -/
lemma goodB_collapseA : ∀ (s : List Char) (b : Bool),
    goodB b (collapseA b s) = true
  | [], _ => rfl
  | c :: rest, b => by
    simp only [collapseA]
    by_cases hc : isPySpace c = true
    · rw [if_pos hc]
      cases b with
      | true => exact goodB_collapseA rest true
      | false =>
        show goodB false (' ' :: collapseA true rest) = true
        simp only [goodB]
        rw [if_pos (show isPySpace ' ' = true by decide)]
        rw [goodB_collapseA rest true]
        rfl
    · rw [if_neg hc]
      simp only [goodB]
      rw [if_neg hc]
      exact goodB_collapseA rest false

/-- Whitespace collapse is the identity on text with the shape invariant. -/
lemma collapseA_of_goodB : ∀ (s : List Char) (b : Bool),
    goodB b s = true → collapseA b s = s
  | [], _, _ => rfl
  | c :: rest, b, h => by
    simp only [goodB] at h
    by_cases hc : isPySpace c = true
    · rw [if_pos hc] at h
      simp only [Bool.and_eq_true, beq_iff_eq, Bool.not_eq_true'] at h
      obtain ⟨⟨h1, h2⟩, h3⟩ := h
      subst h1; subst h2
      simp only [collapseA]
      rw [if_pos hc, collapseA_of_goodB rest true h3]
      rfl
    · rw [if_neg hc] at h
      simp only [collapseA]
      rw [if_neg hc, collapseA_of_goodB rest false h]

/-- Leading-trim keeps the shape invariant (with a cleared flag). -/
lemma goodB_dropWhile : ∀ (s : List Char) (b : Bool), goodB b s = true →
    goodB false (s.dropWhile isPySpace) = true
  | [], _, _ => rfl
  | c :: rest, b, h => by
    simp only [goodB] at h
    by_cases hc : isPySpace c = true
    · rw [if_pos hc] at h
      rw [List.dropWhile_cons, if_pos hc]
      simp only [Bool.and_eq_true] at h
      exact goodB_dropWhile rest true h.2
    · rw [if_neg hc] at h
      rw [List.dropWhile_cons, if_neg hc]
      simp only [goodB]
      rw [if_neg hc]
      exact h

/-- The shape invariant restricts to prefixes. -/
lemma goodB_append_left : ∀ (l m : List Char) (b : Bool),
    goodB b (l ++ m) = true → goodB b l = true
  | [], _, _, _ => rfl
  | c :: l, m, b, h => by
    simp only [List.cons_append, goodB] at h ⊢
    by_cases hc : isPySpace c = true
    · rw [if_pos hc] at h ⊢
      simp only [Bool.and_eq_true] at h ⊢
      exact ⟨h.1, goodB_append_left l m true h.2⟩
    · rw [if_neg hc] at h ⊢
      exact goodB_append_left l m false h

/-- The head surviving a whitespace-drop is not whitespace. -/
lemma dropWhile_head_not : ∀ (s : List Char) (c : Char),
    (s.dropWhile isPySpace).head? = some c → isPySpace c = false
  | [], c, h => by simp at h
  | d :: rest, c, h => by
    by_cases hd : isPySpace d = true
    · rw [List.dropWhile_cons, if_pos hd] at h
      exact dropWhile_head_not rest c h
    · rw [List.dropWhile_cons, if_neg hd] at h
      have hdc : d = c := by simpa using h
      subst hdc
      simpa using hd

/-- A whitespace-drop is the identity when the head is not whitespace. -/
lemma dropWhile_eq_self_of_head : ∀ (s : List Char),
    (∀ c, s.head? = some c → isPySpace c = false) →
    s.dropWhile isPySpace = s
  | [], _ => rfl
  | c :: rest, h => by
    rw [List.dropWhile_cons, if_neg]
    simp [h c rfl]

/-- The whitespace part of `normalize_tex`: collapse, then both trims. -/
def wsNormal (s : List Char) : List Char := trimEnd (trimStart (collapseWs s))

/-- `wsNormal` output satisfies the shape invariant. -/
lemma wsNormal_goodB (s : List Char) : goodB false (wsNormal s) = true := by
  have g1 : goodB false (trimStart (collapseWs s)) = true :=
    goodB_dropWhile _ false (goodB_collapseA s false)
  obtain ⟨m, hm⟩ := List.reverse_prefix.mpr
    (List.dropWhile_suffix (l := (trimStart (collapseWs s)).reverse) isPySpace)
  rw [List.reverse_reverse] at hm
  refine goodB_append_left _ m false ?_
  unfold wsNormal trimEnd
  rw [hm]
  exact g1

/-- `wsNormal` output has no leading whitespace. -/
lemma wsNormal_head (s : List Char) :
    ∀ c, (wsNormal s).head? = some c → isPySpace c = false := by
  intro c hc
  obtain ⟨m, hm⟩ := List.reverse_prefix.mpr
    (List.dropWhile_suffix (l := (trimStart (collapseWs s)).reverse) isPySpace)
  rw [List.reverse_reverse] at hm
  cases hu : wsNormal s with
  | nil => rw [hu] at hc; simp at hc
  | cons a u =>
    rw [hu] at hc
    have hac : a = c := by simpa using hc
    subst hac
    have hu2 : (List.dropWhile isPySpace
        (trimStart (collapseWs s)).reverse).reverse = a :: u := hu
    have hhead : (trimStart (collapseWs s)).head? = some a := by
      rw [← hm, hu2]
      rfl
    exact dropWhile_head_not (collapseWs s) a hhead

/-- `wsNormal` output has no trailing whitespace. -/
lemma wsNormal_last (s : List Char) :
    ∀ c, (wsNormal s).getLast? = some c → isPySpace c = false := by
  intro c hc
  rw [← List.head?_reverse] at hc
  have hrev : (wsNormal s).reverse =
      (trimStart (collapseWs s)).reverse.dropWhile isPySpace := by
    unfold wsNormal trimEnd
    rw [List.reverse_reverse]
  rw [hrev] at hc
  exact dropWhile_head_not _ c hc

/-- `wsNormal` is idempotent. -/
lemma wsNormal_idem (s : List Char) : wsNormal (wsNormal s) = wsNormal s := by
  have hcol : collapseWs (wsNormal s) = wsNormal s :=
    collapseA_of_goodB _ false (wsNormal_goodB s)
  have hts : trimStart (wsNormal s) = wsNormal s :=
    dropWhile_eq_self_of_head _ (wsNormal_head s)
  have hte : trimEnd (wsNormal s) = wsNormal s := by
    unfold trimEnd
    rw [dropWhile_eq_self_of_head ((wsNormal s).reverse)
      (fun c hc => wsNormal_last s c (by rw [← List.head?_reverse]; exact hc)),
      List.reverse_reverse]
  show trimEnd (trimStart (collapseWs (wsNormal s))) = wsNormal s
  rw [hcol, hts, hte]

/-- On backslash-free input the two pattern substitutions vanish and
`normalize_tex` is just the whitespace normalization. -/
lemma normalize_tex_nobs (s : List Char) (h : '\\' ∉ s) :
    normalize_tex s = wsNormal s := by
  unfold normalize_tex wsNormal
  rw [stdpackSub_id s h, declSub_id s h]

/-- Whitespace normalization preserves backslash-freeness. -/
lemma wsNormal_nobs (s : List Char) (h : '\\' ∉ s) : '\\' ∉ wsNormal s := by
  intro hmem
  have h1 : '\\' ∈ trimStart (collapseWs s) := trimEnd_subset _ _ hmem
  have h2 : '\\' ∈ collapseWs s := trimStart_subset _ _ h1
  rcases collapseA_mem s false '\\' h2 with he | hin
  · exact absurd he (by decide)
  · exact h hin

/-- C4 amended: on fragments containing no backslash (hence no
declarations), `normalize_tex` is idempotent, and two such fragments that
agree after collapsing whitespace runs normalize to the same key.  (In
the presence of backslash declarations neither holds in general: removing
one declaration can splice the surrounding text into a new declaration
that only a second pass removes.) -/
theorem normalize_tex_idem_nobackslash (s t : List Char)
    (hs : '\\' ∉ s) (ht : '\\' ∉ t) :
    normalize_tex (normalize_tex s) = normalize_tex s ∧
    (collapseWs s = collapseWs t → normalize_tex s = normalize_tex t) := by
  constructor
  · rw [normalize_tex_nobs s hs,
      normalize_tex_nobs (wsNormal s) (wsNormal_nobs s hs)]
    exact wsNormal_idem s
  · intro hc
    rw [normalize_tex_nobs s hs, normalize_tex_nobs t ht]
    unfold wsNormal
    rw [hc]

theorem normalize_tex_idem_nobackslash_witness :
    ('\\' ∉ "a  b".toList) ∧ ('\\' ∉ "a\tb".toList) ∧
    (normalize_tex (normalize_tex "a  b".toList) = normalize_tex "a  b".toList ∧
     (collapseWs "a  b".toList = collapseWs "a\tb".toList →
       normalize_tex "a  b".toList = normalize_tex "a\tb".toList)) :=
  ⟨by decide, by decide,
    normalize_tex_idem_nobackslash "a  b".toList "a\tb".toList
      (by decide) (by decide)⟩

/-! # C5: failure handling in the math renderer -/

/-- Tool outcomes where the compiler succeeded but catdvi produced bytes
that do not decode as UTF-8 (e.g. `b"\xff"`). -/
def oracleBadDecode : TexToolOracle :=
  { compileOut := some "tmp.dvi", catdviOut := some [255],
    decodeUtf8 := fun _ => none }

/-- Tool outcomes where the catdvi invocation itself failed, so
`run_catdvi` returned `None`. -/
def oracleNoOutput : TexToolOracle :=
  { compileOut := some "tmp.dvi", catdviOut := none,
    decodeUtf8 := fun _ => none }

/-- C5 (code bug): two of the failure stages the claim covers do not
yield a graceful per-fragment failure.  After a `UnicodeDecodeError` the
handler leaves `dvistr` as `bytes` and the following
`re.sub(r"\s+", " ", dvistr)` with a `str` pattern raises an uncaught
`TypeError`; when `run_catdvi` returns `None`, `dvistr.decode(...)`
raises an uncaught `AttributeError`.  Either exception propagates out of
`process_tree` and aborts the document instead of leaving the element
unrewritten and continuing. -/
theorem tex2str_failure_raises :
    tex2str oracleBadDecode = Except.error PyExc.typeError ∧
    tex2str oracleNoOutput = Except.error PyExc.attrError ∧
    process_tree (fun _ => tex2str oracleBadDecode) []
        [{ tag := "tex-math", text := "x".toList },
         { tag := "tex-math", text := "y".toList }] =
      Except.error PyExc.typeError :=
  ⟨by decide, by decide, by decide⟩

/-! # C7: the regex citation fallback -/

/-- The C7 reference entry: first author `Smith`, year `2020`, no volume,
page or external identifier. -/
def refSmith : RefD :=
  { ref := some "r1", first_author := some "Smith", year := some "2020" }

/-- The C7 candidate interval: the whole passage text. -/
def soC7 : Span := { start := 0, end_ := 21, element := { tag := "p" } }

/-- The C7 passage text. -/
def textC7 : List Char := "as shown (Smith 2020)".toList

/-- C7 counterexample: the fallback does not replace the matched region
with the bare token `<<REF:Smith-2020-?-?>>` — the replacement string is
padded with one space on each side, so the parenthesis content gains
surrounding spaces. -/
theorem regex_fallback_padding_cex :
    renderSoText textC7 soC7 [] [(some "r1", refSmith)] ≠
      "as shown (<<REF:Smith-2020-?-?>>)".toList := by decide

/-- C7 amended: in the regex-fallback branch (no explicit cross-reference
span in the interval), with the reference entry `refSmith`, the matched
region `Smith 2020` of `as shown (Smith 2020)` is replaced by the
space-padded token `\x20<<REF:Smith-2020-?-?>>\x20`, yielding
`as shown ( <<REF:Smith-2020-?-?>> )`. -/
theorem regex_fallback_padded_token :
    renderSoText textC7 soC7 [] [(some "r1", refSmith)] =
      "as shown ( <<REF:Smith-2020-?-?>> )".toList := by decide

/-! # C6: explicit cross-reference substitution -/

/-- The entity scanner is the identity on ampersand-free text. -/
lemma huF_id : ∀ (fuel : Nat) (s : List Char), '&' ∉ s → huF fuel s = s
  | 0, _, _ => rfl
  | _ + 1, [], _ => rfl
  | fuel + 1, c :: rest, h => by
    have hc : ¬c = '&' := fun hx => h (by simp [hx])
    show (if c = '&' then
        (match htmlEntities.findSome?
            (fun e => (litAfter e.1 rest).map (fun r => (e.2, r))) with
         | some dr => dr.1 :: huF fuel dr.2
         | none => c :: huF fuel rest)
      else c :: huF fuel rest) = c :: rest
    rw [if_neg hc, huF_id fuel rest (fun hr => h (List.mem_cons_of_mem c hr))]

/-- `html.unescape` is the identity on ampersand-free text. -/
lemma htmlUnescape_id (s : List Char) (h : '&' ∉ s) : htmlUnescape s = s :=
  huF_id (s.length + 1) s h

/-- The C6 counterexample bibliography cross-reference span over `[1]`. -/
def xrefC6 : Span :=
  { start := 7, end_ := 10,
    element := { tag := "xref", refType := "bibr", rid := "r1" } }

/-- The C6 counterexample candidate interval. -/
def soC6 : Span := { start := 0, end_ := 12, element := { tag := "p" } }

/-- A reference entry carrying the external identifier `12345`. -/
def refPm : RefD := { ref := some "r1", pmid := some "12345" }

/-- The C6 counterexample text: an HTML entity outside the span. -/
def textC6 : List Char := "x&amp; [1] z".toList

/-- C6 counterexample: the token is substituted in place of the span, but
the final `html.unescape` also rewrites text outside the cross-reference
span (`&amp;` becomes `&`), so not every character of the interval
outside the spans is preserved verbatim. -/
theorem xref_substitution_unescape_cex :
    renderSoText textC6 soC6 [xrefC6] [(some "r1", refPm)] =
      "x& <<REF:12345>> z".toList ∧
    renderSoText textC6 soC6 [xrefC6] [(some "r1", refPm)] ≠
      "x&amp; <<REF:12345>> z".toList :=
  ⟨by decide, by decide⟩

/-- C6 amended: when the candidate interval contains one bibliography
cross-reference span whose `rid` resolves to an entry with a (nonempty)
external identifier `p`, the rendered text is exactly
`outside-prefix ++ <<REF:p>> ++ outside-suffix` — the token replaces the
span's source text and the rest of the interval is preserved verbatim —
provided the assembled text contains no ampersand, since both branches
end with `html.unescape`, which may rewrite entity references anywhere in
the interval (as the counterexample shows). -/
theorem xref_substitution_piecewise (text : List Char) (so x : Span)
    (refDict : List (Option String × RefD)) (r : RefD) (p : String)
    (hbibr : x.element.refType = "bibr")
    (hlo : so.start ≤ x.start) (hhi : x.end_ ≤ so.end_)
    (hget : dictGet refDict (some x.element.rid) = some r)
    (hpmid : r.pmid = some p) (hne : p ≠ "")
    (hamp1 : '&' ∉ pyslice text so.start x.start)
    (hamp2 : '&' ∉ p.toList)
    (hamp3 : '&' ∉ pyslice text x.end_ so.end_) :
    renderSoText text so [x] refDict =
      pyslice text so.start x.start ++
      ("<<REF:".toList ++ p.toList ++ ">>".toList) ++
      pyslice text x.end_ so.end_ := by
  have hb : (x.element.refType == "bibr") = true := by simp [hbibr]
  have htok : refToken refDict x.element.rid =
      "<<REF:".toList ++ p.toList ++ ">>".toList := by
    unfold refToken
    rw [hget]
    simp only [hpmid, Option.getD_some, ne_eq]
    rw [if_pos hne]
  simp only [renderSoText, List.filter_cons, List.filter_nil,
    decide_eq_true hlo, decide_eq_true hhi, hb, Bool.and_self, Bool.true_and,
    Bool.and_true, Bool.or_true, Bool.true_or, if_true, reduceIte,
    List.foldl_cons, List.foldl_nil, htok]
  rw [if_pos (List.cons_ne_nil x [])]
  rw [htmlUnescape_id]
  · simp [List.append_assoc]
  · intro hmem
    simp only [List.nil_append, List.append_assoc, List.mem_append] at hmem
    rcases hmem with hmem | hmem | hmem | hmem | hmem
    · exact hamp1 hmem
    · exact absurd hmem (by decide)
    · exact hamp2 hmem
    · exact absurd hmem (by decide)
    · exact hamp3 hmem

/-- The spec-scenario cross-reference span `[5, 9)`. -/
def xrefW : Span :=
  { start := 5, end_ := 9,
    element := { tag := "xref", refType := "bibr", rid := "r1" } }

/-- The spec-scenario candidate interval. -/
def soW : Span := { start := 0, end_ := 14, element := { tag := "p" } }

/-- The spec-scenario reference entry with identifier `12345`. -/
def refPmW : RefD := { ref := some "r1", pmid := some "12345" }

/-- The spec-scenario text. -/
def textW : List Char := "abcdeWXYZfghij".toList

theorem xref_substitution_piecewise_witness :
    (xrefW.element.refType = "bibr" ∧ soW.start ≤ xrefW.start ∧
     xrefW.end_ ≤ soW.end_ ∧
     dictGet [(some "r1", refPmW)] (some xrefW.element.rid) = some refPmW ∧
     refPmW.pmid = some "12345" ∧ "12345" ≠ "" ∧
     '&' ∉ pyslice textW soW.start xrefW.start ∧
     '&' ∉ "12345".toList ∧
     '&' ∉ pyslice textW xrefW.end_ soW.end_) ∧
    renderSoText textW soW [xrefW] [(some "r1", refPmW)] =
      pyslice textW soW.start xrefW.start ++
      ("<<REF:".toList ++ "12345".toList ++ ">>".toList) ++
      pyslice textW xrefW.end_ soW.end_ :=
  ⟨by decide,
    xref_substitution_piecewise textW soW xrefW [(some "r1", refPmW)] refPmW
      "12345" (by decide) (by decide) (by decide) (by decide) (by decide)
      (by decide) (by decide) (by decide) (by decide)⟩

end Nxml2txt
